import Mathlib

/-!
Verification model of the streaming transcription pipeline of
`simple-whisper-app` (files `src/streaming/stream_whisper.py` and
`transcription_engine.py`).

Python strings are modelled as Lean `String`; `str.split()`, `str.strip()`,
`str.startswith` and slicing are re-implemented below over the character
list (`String.data`) with Python's semantics (code-point indexing, the
ASCII whitespace class of the `re` module).  Machine floats appear in the
source only as the overlap threshold `0.7` and probability scores; both are
modelled as `ℚ`, which is exact for every comparison the claims exercise.
Wall-clock timestamps (`time.time()`) are external inputs that never affect
control flow; they are carried as opaque `Nat` values.
-/

/-- Python's whitespace class for `str.split` / `str.strip` / `re` `\s`
(ASCII part: space, tab, newline, carriage return, vertical tab, form feed). -/
def pySpace (c : Char) : Bool :=
  c = ' ' || c = '\t' || c = '\n' || c = '\r' || c = Char.ofNat 11 || c = Char.ofNat 12

/-- Worker for `pySplit`: split a character list on whitespace runs,
dropping empty pieces, with an accumulator for the current word. -/
def pySplitGo : List Char → List Char → List (List Char)
  | [], acc => if acc = [] then [] else [acc.reverse]
  | c :: cs, acc =>
    if pySpace c then
      (if acc = [] then pySplitGo cs [] else acc.reverse :: pySplitGo cs [])
    else pySplitGo cs (c :: acc)

/-- Python `str.split()` with no argument: split on whitespace runs,
no empty fields. -/
def pySplit (s : String) : List String := (pySplitGo s.data []).map String.mk

/-- Python `" ".join(xs)`. -/
def joinSpace : List String → String
  | [] => ""
  | [x] => x
  | x :: y :: xs => x ++ " " ++ joinSpace (y :: xs)

/-- Python `str.strip()` on a character list. -/
def pyStripChars (l : List Char) : List Char :=
  ((l.dropWhile pySpace).reverse.dropWhile pySpace).reverse

/-- Python `str.strip()`. -/
def pyStrip (s : String) : String := String.mk (pyStripChars s.data)

/-- Character-list version of Python `str.startswith` (first list leads
the second). -/
def listLeads : List Char → List Char → Bool
  | [], _ => true
  | _ :: _, [] => false
  | a :: as, b :: bs => a = b && listLeads as bs

/-- Python `s.startswith(pre)`. -/
def pyStartsWith (s pre : String) : Bool := listLeads pre.data s.data

/-- Python slicing `s[n:]` (by code point, as `len`/slicing work in Python). -/
def strDrop (s : String) (n : Nat) : String := String.mk (s.data.drop n)

/-- Python `len(s)` (number of code points). -/
def strLen (s : String) : Nat := s.data.length

/-- One unit of audio handed around the pipeline: a run of mono samples.
Sample values never influence control flow, so they stay abstract `Int`s. -/
abbrev AudioData := List Int

/-- The result dictionary built by `StreamWhisper._transcribe_chunk`
(stream_whisper.py lines 378-382): `text`, `language`, `timestamp`. -/
structure StreamResult where
  text : String
  language : String
  timestamp : Nat
deriving DecidableEq, Repr

/-- The mutable streaming state of a `StreamWhisper` object
(stream_whisper.py `__init__`, lines 87-121): streaming flag, the
bounded work queue and result queue, the fixed-window audio buffer, the
VAD speech buffer and silence counter, the rolling `last_chunk_text`,
the bounded transcription context, the accumulated full text, and the
session language versus the user-requested language. -/
structure StreamState where
  isStreaming : Bool
  useVad : Bool
  userLanguage : Option String
  language : Option String
  audioBuffer : List AudioData
  speechBuffer : List AudioData
  silenceFrames : Nat
  audioQueue : List AudioData
  resultQueue : List StreamResult
  transcriptionContext : List StreamResult
  lastChunkText : String
  fullText : String
deriving DecidableEq, Repr

/-- Non-blocking enqueue onto the bounded `queue.Queue(maxsize=10)`
(stream_whisper.py line 89): `put(block=False)`, and on `queue.Full`
a `get_nowait()` discarding the oldest element followed by a second
`put` (lines 238-246, likewise 166-188 and 259-266). -/
def enqueueDropOldest (cap : Nat) (q : List α) (x : α) : List α :=
  if q.length < cap then q ++ [x] else q.drop 1 ++ [x]

/-- `StreamWhisper._handle_overlap` (stream_whisper.py lines 397-426),
as a pure function from (`self.last_chunk_text`, incoming `text`) to
(outgoing `text`, new `self.last_chunk_text`).  The incoming text is
stripped; if it starts with the stored trailing words that prefix is cut
and the remainder re-stripped (an exact-prefix chunk becomes empty);
otherwise the dictionary keeps the original unstripped text.  The stored
trailing words are then re-derived from the full stripped current text:
its last 3 words when it has more than 3 words, else the whole text. -/
def streamHandleOverlap (last text : String) : String × String :=
  let ct := pyStrip text
  if ct = "" then ("", last)
  else
    let out :=
      if last ≠ "" ∧ pyStartsWith ct last then
        if strLen ct > strLen last then pyStrip (strDrop ct (strLen last)) else ""
      else text
    let ws := pySplit ct
    let newLast := if ws.length > 3 then joinSpace (ws.drop (ws.length - 3)) else ct
    (out, newLast)

/-- Derivation of trailing words as the specification words it in §4.4:
the final 3 words of a given text, or the whole text if it has 3 or
fewer words.  The spec applies this to the reconciled (prefix-stripped)
text; the code applies the same derivation to the full chunk text.  This
definition exists to state that comparison. -/
def specReDerivedTrailing (t : String) : String :=
  let ws := pySplit t
  if ws.length > 3 then joinSpace (ws.drop (ws.length - 3)) else t

/-- Total samples held in a list of buffered audio runs
(`sum(len(chunk) for chunk in ...)`, stream_whisper.py line 254). -/
def sumLen (l : List AudioData) : Nat := (l.map List.length).sum

/-- `np.concatenate` of buffered audio runs (stream_whisper.py line 258). -/
def concatSamples (l : List AudioData) : AudioData := l.flatten

/-- Per-frame body of the VAD loop in
`StreamWhisper._process_audio_with_vad` (stream_whisper.py lines
207-249).  Each complete frame arrives with its classifier verdict
(`vad.is_speech`, line 214; a classifier exception counts as silence,
line 217).  Speech appends the frame to the speech buffer and zeroes the
silence counter; silence bumps the counter and, once the silence
duration reaches the threshold with a non-empty buffer, emits the
concatenated buffer to the work queue and clears the buffer. -/
def vadFrameStep (frameDurationMs silenceDurationMs : Nat) (s : StreamState)
    (fb : AudioData × Bool) : StreamState :=
  if fb.2 then
    { s with
      speechBuffer := if fb.1 ≠ [] then s.speechBuffer ++ [fb.1] else s.speechBuffer,
      silenceFrames := 0 }
  else
    let sf := s.silenceFrames + 1
    if sf * frameDurationMs ≥ silenceDurationMs ∧ s.speechBuffer ≠ [] then
      { s with
        silenceFrames := sf,
        audioQueue := enqueueDropOldest 10 s.audioQueue (concatSamples s.speechBuffer),
        speechBuffer := [] }
    else { s with silenceFrames := sf }

/-- `StreamWhisper._process_audio_with_vad` (stream_whisper.py lines
190-267): run the frame loop, then the safety check of lines 251-267 —
if the speech buffer is non-empty and its total length has reached
`max_duration_samples` (`chunk_duration * sample_rate`), force-emit the
concatenated buffer and clear it. -/
def processAudioWithVad (frameDurationMs silenceDurationMs maxDurationSamples : Nat)
    (s : StreamState) (frames : List (AudioData × Bool)) : StreamState :=
  let s₁ := frames.foldl (vadFrameStep frameDurationMs silenceDurationMs) s
  if s₁.speechBuffer ≠ [] ∧ sumLen s₁.speechBuffer ≥ maxDurationSamples then
    { s₁ with
      audioQueue := enqueueDropOldest 10 s₁.audioQueue (concatSamples s₁.speechBuffer),
      speechBuffer := [] }
  else s₁

/-- Python `max(probs, key=probs.get)` over the language-probability
dictionary returned by `model.detect_language` (stream_whisper.py line
363): the first key of maximal probability in iteration order. -/
def pyMaxKey : List (String × ℚ) → String
  | [] => ""
  | p :: ps => (ps.foldl (fun best x => if x.2 > best.2 then x else best) p).1

/-- Externally supplied data consumed by one `_transcribe_chunk` call:
the language probabilities the model would report for the chunk and the
decoded text.  Both come from the opaque inference engine. -/
structure ChunkInput where
  probs : List (String × ℚ)
  decoded : String
deriving Repr

/-- `StreamWhisper._transcribe_chunk` (stream_whisper.py lines 339-391)
for one chunk: detect the language only when `self.language` is `None`
(lines 361-364) and pin the argmax; build the result dictionary (lines
378-382, timestamp external); then run `_handle_overlap` (line 385).
The simplified-Chinese rewrite (line 388) is an external `zhconv` call
guarded by a flag no claim exercises and is not modelled.  Returns the
new state, the result and whether detection ran on this chunk. -/
def transcribeChunk (s : StreamState) (now : Nat) (inp : ChunkInput) :
    StreamState × StreamResult × Bool :=
  match s.language with
  | some l =>
    let ho := streamHandleOverlap s.lastChunkText inp.decoded
    ({ s with lastChunkText := ho.2 },
     { text := ho.1, language := l, timestamp := now }, false)
  | none =>
    let l := pyMaxKey inp.probs
    let ho := streamHandleOverlap s.lastChunkText inp.decoded
    ({ s with language := some l, lastChunkText := ho.2 },
     { text := ho.1, language := l, timestamp := now }, true)

/-- Sequential transcription of a list of chunks by the worker thread,
counting how many of the calls invoked language detection. -/
def runChunks (s : StreamState) : List ChunkInput → StreamState × Nat
  | [] => (s, 0)
  | inp :: rest =>
    let t := transcribeChunk s 0 inp
    let r := runChunks t.1 rest
    (r.1, (if t.2.2 then 1 else 0) + r.2)

/-- `StreamWhisper.start_streaming` (stream_whisper.py lines 470-555):
an already-streaming session returns `False` untouched (lines 480-482);
otherwise the pipeline state is reset (lines 487-510: buffers, context,
`last_chunk_text`, the pinned language back to the user choice, VAD
state, both queues) and the audio device is opened — `openOk` stands for
that external call succeeding; on failure the flag is dropped again and
`False` returned (lines 552-555). -/
def startStreaming (s : StreamState) (openOk : Bool) : Bool × StreamState :=
  if s.isStreaming then (false, s)
  else
    let s₁ := { s with
      isStreaming := true
      audioBuffer := []
      transcriptionContext := []
      lastChunkText := ""
      language := s.userLanguage
      speechBuffer := []
      silenceFrames := 0
      audioQueue := []
      resultQueue := [] }
    if openOk then (true, s₁) else (false, { s₁ with isStreaming := false })

/-- Trim of the transcription context to its 50 most recent entries
(`self.transcription_context[-50:]`, stream_whisper.py lines 645-646). -/
def trim50 (l : List StreamResult) : List StreamResult :=
  if l.length > 50 then l.drop (l.length - 50) else l

/-- Context evolution of one `get_transcription` consumption
(stream_whisper.py lines 638-650): a dequeued result with non-empty text
is appended and the context trimmed to 50; an empty-text result is
discarded without touching the context. -/
def streamConsume (ctx : List StreamResult) (r : StreamResult) : List StreamResult :=
  if r.text ≠ "" then trim50 (ctx ++ [r]) else ctx

/-- `StreamWhisper.get_transcription` (stream_whisper.py lines 626-669):
pull one result from the result queue (empty queue returns `None`);
a result with text is appended to the bounded context, concatenated to
the running full text and returned; otherwise `None`.  File output
(lines 653-663) is external IO without state effect and is omitted. -/
def getTranscriptionStep (s : StreamState) : StreamState × Option String :=
  match s.resultQueue with
  | [] => (s, none)
  | r :: rest =>
    if r.text ≠ "" then
      ({ s with
          resultQueue := rest
          transcriptionContext := trim50 (s.transcriptionContext ++ [r])
          fullText := s.fullText ++ r.text ++ " " },
       some r.text)
    else ({ s with resultQueue := rest }, none)

/-- `StreamWhisper.get_transcription_context` (stream_whisper.py lines
696-698). -/
def getTranscriptionContextOf (s : StreamState) : List StreamResult :=
  s.transcriptionContext

/-- `StreamWhisper.get_full_transcription` without timestamps
(stream_whisper.py line 694): space-join of the non-empty entry texts. -/
def getFullTranscriptionOf (s : StreamState) : String :=
  joinSpace ((s.transcriptionContext.filter (fun r => r.text ≠ "")).map (fun r => r.text))

/-- A streaming session together with the facts about the inference
worker thread that live outside the Python object: whether the worker's
`_process_audio_chunks` loop is still running, and the segments it has
dequeued and transcribed so far (stream_whisper.py lines 318-337). -/
structure SessionWorld where
  st : StreamState
  workerAlive : Bool
  processedSegs : List AudioData
deriving DecidableEq, Repr

/-- One observed iteration of the worker loop
`StreamWhisper._process_audio_chunks` (stream_whisper.py lines 318-337):
if the loop guard `while self.is_streaming` (line 320) reads `False` the
thread exits; otherwise it either times out on an empty queue and
retries, or dequeues the head segment and transcribes it. -/
def workerStep (w : SessionWorld) : SessionWorld :=
  if ¬ w.workerAlive then w
  else if ¬ w.st.isStreaming then { w with workerAlive := false }
  else
    match w.st.audioQueue with
    | [] => w
    | c :: rest =>
      { w with
        st := { w.st with audioQueue := rest }
        processedSegs := w.processedSegs ++ [c] }

/-- Run `n` observed worker iterations. -/
def workerSteps : Nat → SessionWorld → SessionWorld
  | 0, w => w
  | n + 1, w => workerSteps n (workerStep w)

/-- Line 562 of `stop_streaming`: `self.is_streaming = False`. -/
def stopSetFlag (w : SessionWorld) : SessionWorld :=
  { w with st := { w.st with isStreaming := false } }

/-- Lines 564-573 of `stop_streaming`: in VAD mode with a non-empty
speech buffer, `put` the concatenated buffer onto the work queue with
`block=False` (a `queue.Full` exception lands in the generic `except`
and the segment is lost) and clear the buffer in the `finally`. -/
def stopFlush (w : SessionWorld) : SessionWorld :=
  if w.st.useVad ∧ w.st.speechBuffer ≠ [] then
    { w with st := { w.st with
        audioQueue :=
          if w.st.audioQueue.length < 10
          then w.st.audioQueue ++ [concatSamples w.st.speechBuffer]
          else w.st.audioQueue
        speechBuffer := [] } }
  else w

/-- Lines 588-594 of `stop_streaming`: drain and discard whatever is
left on the work queue after the worker join. -/
def stopClearQueue (w : SessionWorld) : SessionWorld :=
  { w with st := { w.st with audioQueue := [] } }

/-- `StreamWhisper.stop_streaming` (stream_whisper.py lines 557-624)
under an explicit thread schedule: a no-op unless streaming; otherwise
the flag is cleared, the worker gets `k₁` loop iterations (the schedule
slot between line 562 and the flush), the speech buffer is flushed, the
worker gets `k₂` further iterations (the slot up to the bounded join of
line 586, which proceeds after 2 s whether or not the worker exited),
and finally the work queue is drained and discarded.  Closing the device
and the output files (lines 576-622) is external IO. -/
def stopStreamingRun (k₁ k₂ : Nat) (w : SessionWorld) : SessionWorld :=
  if ¬ w.st.isStreaming then w
  else stopClearQueue (workerSteps k₂ (stopFlush (workerSteps k₁ (stopSetFlag w))))

/-- The entry dictionary appended to `RealTimeTranscriber`'s
transcription context (`transcription_engine.py` lines 283-287): the
finalized text and its word count (the `time.time()` timestamp is an
external clock read no claim touches). -/
structure CtxEntry where
  text : String
  wordCount : Nat
deriving DecidableEq, Repr

/-- Sum of `word_count` over context entries (transcription_engine.py
line 292). -/
def sumWC (l : List CtxEntry) : Nat := (l.map CtxEntry.wordCount).sum

/-- The eviction loop of `RealTimeTranscriber._update_context`
(transcription_engine.py lines 292-295): pop entries from the front
while the cumulative word count exceeds the maximum and entries
remain. -/
def evict (maxW : Nat) : List CtxEntry → List CtxEntry
  | [] => []
  | e :: t => if sumWC (e :: t) ≤ maxW then e :: t else evict maxW t

/-- The mutable state of a `RealTimeTranscriber`
(transcription_engine.py `__init__`, lines 19-53): pinned language,
configured `max_context_words`, the bounded context, the pending partial
fragments, and the trailing words kept for overlap detection.  The
configuration constants `min_sentence_length = 3` and
`overlap_threshold = 0.7` (lines 43-44) are carried as fields so the
model states them once. -/
structure EngineState where
  language : Option String
  maxContextWords : Nat
  minSentenceLength : Nat
  overlapThreshold : ℚ
  context : List CtxEntry
  pendingFrags : List String
  lastWords : List String
  lastText : String

/-- `RealTimeTranscriber._update_context` (transcription_engine.py lines
278-303): skip empty text; append an entry carrying
`len(text.split())`; evict from the front while over budget; refresh the
trailing words (up to the last 5 words) for overlap detection. -/
def engineUpdateContext (s : EngineState) (text : String) : EngineState :=
  if text = "" then s
  else
    let entry : CtxEntry := { text := text, wordCount := (pySplit text).length }
    let ctx := evict s.maxContextWords (s.context ++ [entry])
    let ws := pySplit text
    if ws = [] then { s with context := ctx }
    else
      let keep := min 5 ws.length
      let lw := ws.drop (ws.length - keep)
      { s with context := ctx, lastWords := lw, lastText := joinSpace lw }

/-- Word-prefix overlap count of `RealTimeTranscriber._handle_overlap`
(transcription_engine.py lines 229-234): walk `i` from the front,
comparing the i-th current word to `previous_words[-max_overlap + i]`,
stopping at the first mismatch. -/
def overlapCount (cw pw : List String) (maxOv : Nat) : Nat :=
  (((cw.take maxOv).zip (pw.drop (pw.length - maxOv))).takeWhile
    (fun p => p.1 = p.2)).length

/-- The comparison text of `RealTimeTranscriber._handle_overlap`
(transcription_engine.py lines 208-212): the joined non-empty texts of
the last 5 context entries. -/
def prevTextOf (s : EngineState) : String :=
  joinSpace (((s.context.drop (s.context.length - 5)).filter
    (fun c => c.text ≠ "")).map CtxEntry.text)

/-- The discard test of transcription_engine.py lines 236-239:
`overlap_count / len(current_words) > overlap_threshold`, with the
float arithmetic carried out in `ℚ`. -/
abbrev ratioExceeds (ov n : Nat) (t : ℚ) : Prop := (ov : ℚ) / (n : ℚ) > t

/-- `RealTimeTranscriber._handle_overlap` (transcription_engine.py lines
196-249): compare the cleaned current text against the concatenated
texts of the last 5 context entries; a word-prefix overlap ratio above
the threshold discards the fragment, a partial overlap strips the
overlapping leading words, otherwise the text is new as a whole.
Returns `(is_new, new_text)`. -/
def engineHandleOverlap (s : EngineState) (currentText : String) : Bool × String :=
  if currentText = "" then (false, "")
  else
    let prevText := prevTextOf s
    if prevText = "" then (true, currentText)
    else
      let cw := pySplit currentText
      let pw := pySplit prevText
      if cw = [] then (false, "")
      else
        let maxOv := min cw.length pw.length
        let ov := overlapCount cw pw maxOv
        if ratioExceeds ov cw.length s.overlapThreshold then (false, "")
        else if ov > 0 then (true, joinSpace (cw.drop ov))
        else (true, currentText)

/-- Rest of a character list after the first occurrence of `c`, when one
exists. -/
def afterChar (c : Char) : List Char → Option (List Char)
  | [] => none
  | x :: xs => if x = c then some xs else afterChar c xs

/-- Python `re.sub(open.*?close, '', text)` for single-character
delimiters: repeatedly delete the leftmost-shortest delimited span (an
opener with no later closer stays as-is).  Structural on a fuel bound of
the list length so concrete runs reduce in the kernel. -/
def removeSpansF (o c : Char) : Nat → List Char → List Char
  | 0, l => l
  | _ + 1, [] => []
  | fuel + 1, x :: xs =>
    if x = o then
      match afterChar c xs with
      | some rest => removeSpansF o c fuel rest
      | none => x :: removeSpansF o c fuel xs
    else x :: removeSpansF o c fuel xs

/-- Python `re.sub(r'\.{2,}', '...', text)`: collapse every run of two
or more dots to an ellipsis (fuel-structural like `removeSpansF`). -/
def normDotsF : Nat → List Char → List Char
  | 0, l => l
  | _ + 1, [] => []
  | fuel + 1, x :: xs =>
    if x = '.' then
      if (xs.takeWhile (fun d => d = '.')).length ≥ 1 then
        '.' :: '.' :: '.' :: normDotsF fuel (xs.dropWhile (fun d => d = '.'))
      else x :: normDotsF fuel xs
    else x :: normDotsF fuel xs

/-- `RealTimeTranscriber._clean_text` (transcription_engine.py lines
173-194): collapse whitespace runs and strip (`" ".join(text.split())`
is the exact effect of `re.sub(r'\s+', ' ', text).strip()`), delete
bracketed artifact spans for `[]`, `()` and `<>` in that order, collapse
multi-dot runs to `...`, and strip the result. -/
def cleanText (t : String) : String :=
  if t = "" then ""
  else
    let t1 := joinSpace (pySplit t)
    let t2 := String.mk (removeSpansF '[' ']' t1.data.length t1.data)
    let t3 := String.mk (removeSpansF '(' ')' t2.data.length t2.data)
    let t4 := String.mk (removeSpansF '<' '>' t3.data.length t3.data)
    let t5 := String.mk (normDotsF t4.data.length t4.data)
    pyStrip t5

/-- Match of `re.search(p + '$', text)` for the Latin-family patterns
`[.!?]\s+` / `[.!?。！？]\s+`: the text must end in at least one
whitespace character preceded by one of the punctuation marks. -/
def endsPunctThenWs (puncts : List Char) (t : String) : Bool :=
  let r := t.data.reverse
  let ws := r.takeWhile pySpace
  !ws.isEmpty &&
    match r.drop ws.length with
    | c :: _ => puncts.contains c
    | [] => false

/-- Match of `re.search(p + '$', text)` for the CJK patterns
`[。！？]\s*`: optional trailing whitespace preceded by one of the
marks. -/
def endsPunctOptWs (puncts : List Char) (t : String) : Bool :=
  match t.data.reverse.dropWhile pySpace with
  | c :: _ => puncts.contains c
  | [] => false

/-- Python `s.endswith(suf)`. -/
def pyEndsWith (s suf : String) : Bool := listLeads suf.data.reverse s.data.reverse

/-- `RealTimeTranscriber._is_complete_sentence` (transcription_engine.py
lines 251-276): false for empty text or fewer than
`min_sentence_length` words; otherwise test the language-specific
end-of-sentence pattern from `sentence_end_patterns` (lines 47-53, the
combined pattern when the language is unknown), anchored at the end of
the text; for Chinese additionally accept a bare trailing `。`, `！` or
`？` (lines 271-274). -/
def isCompleteSentence (lang : Option String) (minLen : Nat) (text : String) : Bool :=
  if text = "" then false
  else if (pySplit text).length < minLen then false
  else
    let patHit :=
      match lang with
      | some "en" => endsPunctThenWs ['.', '!', '?'] text
      | some "zh" => endsPunctOptWs ['。', '！', '？'] text
      | some "ja" => endsPunctOptWs ['。', '！', '？'] text
      | some "ko" => endsPunctThenWs ['.', '!', '?'] text
      | _ => endsPunctThenWs ['.', '!', '?', '。', '！', '？'] text
    if patHit then true
    else if lang = some "zh" &&
        (pyEndsWith text "。" || pyEndsWith text "！" || pyEndsWith text "？") then true
    else false

/-- The fields of the dictionary returned by
`RealTimeTranscriber._process_text_result` that drive the pipeline:
the raw input, the cleaned text, the finalized output (empty while the
sentence is still accumulating) and the `is_new` flag.  The snapshot of
the pending partials and the processing time are observational copies
of state / external timing and are omitted. -/
structure TextResult where
  rawText : String
  cleanedText : String
  finalText : String
  isNew : Bool
deriving DecidableEq, Repr

/-- `RealTimeTranscriber._process_text_result` (transcription_engine.py
lines 110-171): clean the text (empty cleans return immediately);
reconcile against the recent context; record genuinely new text in the
context; then the sentence state machine — a new fragment that is itself
a complete sentence is finalized at once and pending partials are
cleared, otherwise it joins the pending partials and the concatenation
of all pending partials is finalized if now complete. -/
def processTextResult (s : EngineState) (text : String) : EngineState × TextResult :=
  let cleaned := cleanText text
  if cleaned = "" then
    (s, { rawText := text, cleanedText := "", finalText := "", isNew := false })
  else
    let ho := engineHandleOverlap s cleaned
    let isNew := ho.1
    let newText := ho.2
    let s₁ := if newText ≠ "" then engineUpdateContext s newText else s
    let complete := isCompleteSentence s₁.language s₁.minSentenceLength newText
    if isNew ∧ newText ≠ "" then
      if complete then
        ({ s₁ with pendingFrags := [] },
         { rawText := text, cleanedText := cleaned, finalText := newText, isNew := true })
      else
        let ps := s₁.pendingFrags ++ [newText]
        let combined := joinSpace ps
        if isCompleteSentence s₁.language s₁.minSentenceLength combined then
          ({ s₁ with pendingFrags := [] },
           { rawText := text, cleanedText := cleaned, finalText := combined, isNew := true })
        else
          ({ s₁ with pendingFrags := ps },
           { rawText := text, cleanedText := cleaned, finalText := "", isNew := true })
    else
      (s₁, { rawText := text, cleanedText := cleaned, finalText := "", isNew := isNew })

/-- A fresh `RealTimeTranscriber(language=lang)` with the default
configuration of transcription_engine.py lines 19-53
(`max_context_words=100`, `min_sentence_length=3`,
`overlap_threshold=0.7`). -/
def initEngineState (lang : Option String) : EngineState :=
  { language := lang
    maxContextWords := 100
    minSentenceLength := 3
    overlapThreshold := 7 / 10
    context := []
    pendingFrags := []
    lastWords := []
    lastText := "" }

/-- A concrete live VAD streaming session used to instantiate theorems
with hypotheses. -/
def demoState : StreamState :=
  { isStreaming := true
    useVad := true
    userLanguage := none
    language := none
    audioBuffer := []
    speechBuffer := []
    silenceFrames := 0
    audioQueue := []
    resultQueue := []
    transcriptionContext := []
    lastChunkText := ""
    fullText := "" }

/-- A concrete engine state with a small word budget and two stored
entries, used to instantiate theorems with hypotheses. -/
def demoEngine : EngineState :=
  { initEngineState none with
      maxContextWords := 3
      context := [{ text := "a b", wordCount := 2 }, { text := "c", wordCount := 1 }] }

/-- A live VAD session with two buffered speech frames and an idle
worker, at the moment `stop_streaming` is called. -/
def demoStopWorld : SessionWorld :=
  { st := { demoState with speechBuffer := [[1, 2], [3]] }
    workerAlive := true
    processedSegs := [] }

/-- The engine state after feeding `"Hello there"` to a fresh
English-pinned `RealTimeTranscriber`: the fragment is in the context and
pending as an unfinished partial. -/
def c2Mid : EngineState :=
  { initEngineState (some "en") with
      context := [{ text := "Hello there", wordCount := 2 }]
      pendingFrags := ["Hello there"]
      lastWords := ["Hello", "there"]
      lastText := "Hello there" }

/-- The engine state after then feeding `"friend."`: both fragments sit
in the context and in the pending partials — nothing was finalized. -/
def c2End : EngineState :=
  { c2Mid with
      context := [{ text := "Hello there", wordCount := 2 }, { text := "friend.", wordCount := 1 }]
      pendingFrags := ["Hello there", "friend."]
      lastWords := ["friend."]
      lastText := "friend." }

theorem evict_sumWC_le (maxW : Nat) : ∀ l : List CtxEntry, sumWC (evict maxW l) ≤ maxW
  | [] => by simp [evict, sumWC]
  | e :: t => by
    rw [evict]
    split
    · assumption
    · exact evict_sumWC_le maxW t

theorem evict_eq_drop (maxW : Nat) : ∀ l : List CtxEntry, ∃ k, evict maxW l = l.drop k
  | [] => ⟨0, rfl⟩
  | e :: t => by
    rw [evict]
    split
    · exact ⟨0, rfl⟩
    · obtain ⟨k, hk⟩ := evict_eq_drop maxW t
      exact ⟨k + 1, by simpa using hk⟩

theorem engineUpdateContext_context (s : EngineState) (text : String) (h : text ≠ "") :
    (engineUpdateContext s text).context =
      evict s.maxContextWords
        (s.context ++ [{ text := text, wordCount := (pySplit text).length }]) := by
  rw [engineUpdateContext, if_neg h]
  dsimp only
  split <;> rfl

/-- C3: after every append to the transcription context
(`RealTimeTranscriber._update_context`) the summed `word_count` of the
stored entries is at most `max_context_words`, and the surviving context
is a tail of the appended list — eviction removes only the oldest
entries, from the front. -/
theorem contextEvictionInvariant (s : EngineState) (text : String) (h : text ≠ "") :
    sumWC (engineUpdateContext s text).context ≤ s.maxContextWords ∧
    ∃ k, (engineUpdateContext s text).context =
      (s.context ++ [({ text := text, wordCount := (pySplit text).length } : CtxEntry)]).drop k := by
  rw [engineUpdateContext_context s text h]
  exact ⟨evict_sumWC_le _ _, evict_eq_drop _ _⟩

/-- Witness for C3 at a concrete over-budget append. -/
theorem contextEvictionInvariantWitness :
    sumWC (engineUpdateContext demoEngine ("d e f")).context ≤ demoEngine.maxContextWords ∧
    ∃ k, (engineUpdateContext demoEngine ("d e f")).context =
      (demoEngine.context ++
        [({ text := "d e f", wordCount := (pySplit ("d e f")).length } : CtxEntry)]).drop k :=
  contextEvictionInvariant demoEngine ("d e f") (by decide)

/-- C4 counterexample: with stored trailing words `"the cat sat"` and
new chunk text `"the cat sat down"`, the reconciled text is `"down"`,
whose spec-side re-derivation is `"down"` itself — but the code stores
`"cat sat down"`, taken from the full chunk text, not from the
reconciled remainder. -/
theorem trailingWordsFromFullTextCex :
    (streamHandleOverlap ("the cat sat") ("the cat sat down")).1 = "down" ∧
    specReDerivedTrailing ((streamHandleOverlap ("the cat sat") ("the cat sat down")).1) = "down" ∧
    (streamHandleOverlap ("the cat sat") ("the cat sat down")).2 = "cat sat down" ∧
    (streamHandleOverlap ("the cat sat") ("the cat sat down")).2 ≠
      specReDerivedTrailing ((streamHandleOverlap ("the cat sat") ("the cat sat down")).1) := by
  decide

/-- C4 as amended: after `StreamWhisper._handle_overlap` processes a
chunk whose stripped text starts with the stored trailing words, the new
stored trailing words are derived from the full stripped chunk text
(its final 3 words, or all of it when it has 3 or fewer words) — not
from the text left after the prefix is stripped. -/
theorem trailingWordsFromFullText (last text : String)
    (hne : pyStrip text ≠ "")
    (_hpre : pyStartsWith (pyStrip text) last = true) :
    (streamHandleOverlap last text).2 = specReDerivedTrailing (pyStrip text) := by
  rw [streamHandleOverlap, if_neg hne]
  rfl

/-- Witness for C4's amended theorem at the counterexample input. -/
theorem trailingWordsFromFullTextWitness :
    (streamHandleOverlap ("the cat sat") ("the cat sat down")).2 =
      specReDerivedTrailing (pyStrip ("the cat sat down")) :=
  trailingWordsFromFullText ("the cat sat") ("the cat sat down") (by decide) (by decide)

/-- C5: with stored trailing words `"the cat sat"`, the chunk
`"the cat sat on the mat"` reconciles to `"on the mat"`, and a chunk
equal to the stored trailing words reconciles to the empty string. -/
theorem overlapReconciliationExamples :
    (streamHandleOverlap ("the cat sat") ("the cat sat on the mat")).1 = "on the mat" ∧
    (streamHandleOverlap ("the cat sat") ("the cat sat")).1 = "" := by
  decide

/-- C6: enqueueing onto the full 10-capacity work queue drops exactly
the oldest queued segment and admits the new one. -/
theorem boundedQueueEviction (q : List AudioData) (x : AudioData) (h : q.length = 10) :
    enqueueDropOldest 10 q x = q.drop 1 ++ [x] ∧ x ∈ enqueueDropOldest 10 q x := by
  constructor
  · simp [enqueueDropOldest, h]
  · simp [enqueueDropOldest, h]

/-- Witness for C6: an 11th segment displacing the oldest of 10. -/
theorem boundedQueueEvictionWitness :
    enqueueDropOldest 10 ([[0], [1], [2], [3], [4], [5], [6], [7], [8], [9]] : List AudioData)
        ([10] : AudioData) =
      ([[0], [1], [2], [3], [4], [5], [6], [7], [8], [9]] : List AudioData).drop 1 ++
        [([10] : AudioData)] ∧
    ([10] : AudioData) ∈
      enqueueDropOldest 10 ([[0], [1], [2], [3], [4], [5], [6], [7], [8], [9]] : List AudioData)
        ([10] : AudioData) :=
  boundedQueueEviction _ _ (by decide)

/-- C10: calling `start_streaming` while already streaming returns
`False` and leaves the whole pipeline state exactly as it was. -/
theorem startStreamingWhileStreamingNoop (s : StreamState) (openOk : Bool)
    (h : s.isStreaming = true) :
    startStreaming s openOk = (false, s) := by
  simp [startStreaming, h]

/-- Witness for C10 on a concrete live session. -/
theorem startStreamingWhileStreamingNoopWitness :
    startStreaming demoState true = (false, demoState) :=
  startStreamingWhileStreamingNoop demoState true (by decide)

theorem foldAllSpeech (fd sd : Nat) :
    ∀ (frames : List (AudioData × Bool)) (s : StreamState),
      (∀ fb ∈ frames, fb.2 = true) →
      (frames.foldl (vadFrameStep fd sd) s).speechBuffer
          = s.speechBuffer ++ (frames.map Prod.fst).filter (fun f => f ≠ []) ∧
        (frames.foldl (vadFrameStep fd sd) s).audioQueue = s.audioQueue
  | [], s, _ => by simp
  | fb :: rest, s, h => by
    have hfb : fb.2 = true := h fb (List.mem_cons_self _ _)
    have ih := foldAllSpeech fd sd rest (vadFrameStep fd sd s fb)
      (fun x hx => h x (List.mem_cons_of_mem _ hx))
    rw [List.foldl_cons]
    refine ⟨?_, ?_⟩
    · rw [ih.1]
      simp only [vadFrameStep, hfb, if_true, List.map_cons, List.filter_cons]
      by_cases hf : fb.1 = []
      · simp [hf]
      · simp [hf, List.append_assoc]
    · rw [ih.2]
      simp [vadFrameStep, hfb]

/-- C7: in VAD mode, a frame batch of pure speech (no silent frame) that
brings the buffered speech up to `max_duration_samples` is force-emitted
to the work queue at the end of the callback and the speech buffer is
cleared, although the silence threshold never fired. -/
theorem safetyCapForcedSegmentation (fd sd maxD : Nat) (s : StreamState)
    (frames : List (AudioData × Bool))
    (hall : ∀ fb ∈ frames, fb.2 = true)
    (hpos : 0 < maxD)
    (hbig : sumLen (s.speechBuffer ++ (frames.map Prod.fst).filter (fun f => f ≠ [])) ≥ maxD) :
    (processAudioWithVad fd sd maxD s frames).speechBuffer = [] ∧
    (processAudioWithVad fd sd maxD s frames).audioQueue =
      enqueueDropOldest 10 s.audioQueue
        (concatSamples (s.speechBuffer ++ (frames.map Prod.fst).filter (fun f => f ≠ []))) := by
  obtain ⟨hb, hq⟩ := foldAllSpeech fd sd frames s hall
  have hne : s.speechBuffer ++ (frames.map Prod.fst).filter (fun f => f ≠ []) ≠ [] := by
    intro h0
    rw [h0] at hbig
    simp [sumLen] at hbig
    omega
  unfold processAudioWithVad
  dsimp only
  rw [hb, hq, if_pos ⟨hne, hbig⟩]
  exact ⟨rfl, rfl⟩

/-- Witness for C7: two pure-speech frames reaching a 4-sample cap. -/
theorem safetyCapForcedSegmentationWitness :
    (processAudioWithVad 10 150 4 demoState [([1, 2], true), ([3, 4], true)]).speechBuffer = [] ∧
    (processAudioWithVad 10 150 4 demoState [([1, 2], true), ([3, 4], true)]).audioQueue =
      enqueueDropOldest 10 demoState.audioQueue
        (concatSamples (demoState.speechBuffer ++
          (([([1, 2], true), ([3, 4], true)] : List (AudioData × Bool)).map Prod.fst).filter
            (fun f => f ≠ []))) :=
  safetyCapForcedSegmentation 10 150 4 demoState _ (by decide) (by decide) (by decide)

theorem transcribeChunk_some (s : StreamState) (now : Nat) (inp : ChunkInput) (l : String)
    (h : s.language = some l) :
    (transcribeChunk s now inp).1.language = some l ∧
    (transcribeChunk s now inp).2.2 = false := by
  simp [transcribeChunk, h]

theorem transcribeChunk_none (s : StreamState) (now : Nat) (inp : ChunkInput)
    (h : s.language = none) :
    (transcribeChunk s now inp).1.language = some (pyMaxKey inp.probs) ∧
    (transcribeChunk s now inp).2.2 = true := by
  simp [transcribeChunk, h]

theorem runChunks_pinned :
    ∀ (inps : List ChunkInput) (s : StreamState) (l : String),
      s.language = some l →
      (runChunks s inps).1.language = some l ∧ (runChunks s inps).2 = 0
  | [], s, l, h => ⟨h, rfl⟩
  | inp :: rest, s, l, h => by
    have ht := transcribeChunk_some s 0 inp l h
    have ih := runChunks_pinned rest (transcribeChunk s 0 inp).1 l ht.1
    rw [runChunks]
    dsimp only
    rw [ht.2]
    simpa using ih

/-- C8: within one session the language is pinned — with an explicit
language every chunk skips detection and the language never changes;
with no explicit language the first chunk pins the argmax of the
detected probabilities and no later chunk re-detects (exactly one
detection over the whole run); and every (re)start of streaming resets
the pinned language to the user-specified value. -/
theorem pinnedLanguageInvariant :
    (∀ (s : StreamState) (inps : List ChunkInput) (l : String),
        s.language = some l →
        (runChunks s inps).1.language = some l ∧ (runChunks s inps).2 = 0) ∧
    (∀ (s : StreamState) (inp : ChunkInput) (rest : List ChunkInput),
        s.language = none →
        (runChunks s (inp :: rest)).1.language = some (pyMaxKey inp.probs) ∧
        (runChunks s (inp :: rest)).2 = 1) ∧
    (∀ (s : StreamState) (openOk : Bool),
        s.isStreaming = false →
        ((startStreaming s openOk).2).language = s.userLanguage) := by
  refine ⟨fun s inps l h => runChunks_pinned inps s l h, ?_, ?_⟩
  · intro s inp rest h
    have ht := transcribeChunk_none s 0 inp h
    have ih := runChunks_pinned rest (transcribeChunk s 0 inp).1 (pyMaxKey inp.probs) ht.1
    rw [runChunks]
    dsimp only
    rw [ht.2]
    simpa using ih
  · intro s openOk h
    rw [startStreaming, if_neg (by simp [h])]
    dsimp only
    split <;> rfl

/-- Witness for C8 at concrete sessions: a pinned English session with
no chunks, an auto-detect session processing one chunk, and a restart of
an idle session. -/
theorem pinnedLanguageInvariantWitness :
    ((runChunks { demoState with language := some "en" } []).1.language = some "en" ∧
      (runChunks { demoState with language := some "en" } []).2 = 0) ∧
    ((runChunks demoState [{ probs := [("en", 9 / 10), ("zh", 1 / 10)], decoded := "hi" }]).1.language
        = some (pyMaxKey [("en", 9 / 10), ("zh", 1 / 10)]) ∧
      (runChunks demoState [{ probs := [("en", 9 / 10), ("zh", 1 / 10)], decoded := "hi" }]).2 = 1) ∧
    ((startStreaming { demoState with isStreaming := false } true).2).language
      = ({ demoState with isStreaming := false } : StreamState).userLanguage :=
  ⟨pinnedLanguageInvariant.1 _ [] "en" rfl,
   pinnedLanguageInvariant.2.1 _ _ [] rfl,
   pinnedLanguageInvariant.2.2 _ true rfl⟩

theorem trim50_suffix (l : List StreamResult) : trim50 l <:+ l := by
  unfold trim50
  split
  · exact List.drop_suffix _ _
  · exact List.suffix_refl _

theorem trim50_length (l : List StreamResult) : (trim50 l).length = min 50 l.length := by
  unfold trim50
  split
  · rw [List.length_drop]
    omega
  · omega

theorem foldConsume (rs : List StreamResult) :
    (rs.foldl streamConsume []).length = min 50 (rs.filter (fun r => r.text ≠ "")).length ∧
    (rs.foldl streamConsume []) <:+ rs.filter (fun r => r.text ≠ "") := by
  induction rs using List.reverseRecOn with
  | nil => simp
  | append_singleton xs r ih =>
    rw [List.foldl_append, List.foldl_cons, List.foldl_nil, List.filter_append]
    by_cases hr : r.text = ""
    · have ihn := ih
      simp only [ne_eq, decide_not] at ihn
      simp [streamConsume, hr, ihn.1, ihn.2]
    · have hcons : streamConsume (xs.foldl streamConsume []) r =
          trim50 (xs.foldl streamConsume [] ++ [r]) := by
        simp [streamConsume, hr]
      rw [hcons]
      constructor
      · rw [trim50_length, List.length_append, ih.1]
        simp [List.filter_cons, hr]
        omega
      · refine (trim50_suffix _).trans ?_
        obtain ⟨t, ht⟩ := ih.2
        refine ⟨t, ?_⟩
        simp only [ne_eq, decide_not] at ht
        rw [← List.append_assoc, ht]
        simp [List.filter_cons, hr]

/-- C9: the transcription context never holds more than 50 results —
each consumed fragment is appended and the context trimmed to the 50
most recent — and what `get_transcription_context` exposes is exactly a
tail of the consumed non-empty fragments of length `min 50 count`. -/
theorem contextBound50 :
    (∀ (s : StreamState) (r : StreamResult) (rest : List StreamResult),
        (getTranscriptionStep { s with resultQueue := r :: rest }).1.transcriptionContext =
          streamConsume s.transcriptionContext r) ∧
    (∀ (rs : List StreamResult) (s : StreamState),
        (rs.foldl streamConsume []).length =
          min 50 (rs.filter (fun r => r.text ≠ "")).length ∧
        (rs.foldl streamConsume []) <:+ rs.filter (fun r => r.text ≠ "") ∧
        (getTranscriptionContextOf
          { s with transcriptionContext := rs.foldl streamConsume [] }).length ≤ 50) := by
  constructor
  · intro s r rest
    by_cases hr : r.text = ""
    · simp [getTranscriptionStep, streamConsume, hr]
    · simp [getTranscriptionStep, streamConsume, hr]
  · intro rs s
    obtain ⟨h1, h2⟩ := foldConsume rs
    refine ⟨h1, h2, ?_⟩
    simp only [getTranscriptionContextOf]
    rw [h1]
    omega

/-- C1: the flush-on-stop guarantee fails on the code.  With speech
frames `[[1, 2], [3]]` buffered at the moment `stop_streaming` is
called, the schedule in which the worker evaluates its
`while self.is_streaming` guard once right after line 562 clears the
flag makes the worker exit before the flush of line 568 enqueues the
final segment; the join succeeds, lines 589-594 then drain the queue,
and the buffered speech is silently dropped: nothing was ever dequeued
and transcribed. -/
theorem flushOnStopDropped :
    demoStopWorld.st.isStreaming = true ∧
    demoStopWorld.st.speechBuffer ≠ [] ∧
    (stopStreamingRun 1 5 demoStopWorld).processedSegs = [] ∧
    (stopStreamingRun 1 5 demoStopWorld).st.audioQueue = [] ∧
    (stopStreamingRun 1 5 demoStopWorld).st.speechBuffer = [] := by
  decide

theorem ratioZeroNever (n : Nat) : ¬ ratioExceeds 0 n (7 / 10) := by
  simp only [ratioExceeds, gt_iff_lt, Nat.cast_zero, zero_div]
  norm_num

theorem c2StepA :
    processTextResult (initEngineState (some "en")) ("Hello there") =
      (c2Mid, { rawText := "Hello there", cleanedText := "Hello there",
                finalText := "", isNew := true }) := by
  rfl

theorem c2ho2 : engineHandleOverlap c2Mid ("friend.") = (true, "friend.") := by
  have hprev : prevTextOf c2Mid = "Hello there" := by decide
  have hth : c2Mid.overlapThreshold = 7 / 10 := rfl
  have hov2 : overlapCount (pySplit ("friend.")) (pySplit ("Hello there"))
      (min (pySplit ("friend.")).length (pySplit ("Hello there")).length) = 0 := by decide
  simp only [engineHandleOverlap, hprev, hth, hov2]
  rw [if_neg (by decide), if_neg (by decide), if_neg (by decide),
    if_neg (ratioZeroNever _), if_neg (by decide)]

theorem c2StepB :
    processTextResult c2Mid ("friend.") =
      (c2End, { rawText := "friend.", cleanedText := "friend.",
                finalText := "", isNew := true }) := by
  have hc : cleanText ("friend.") = "friend." := by decide
  simp only [processTextResult, hc, c2ho2]
  rfl

/-- C2: the claimed finalization never happens on the code.  Feeding
`"Hello there"` then `"friend."` to an English-pinned engine leaves
`final_text` empty on both steps even though the pending partials then
hold exactly `"Hello there friend."` — because the `'en'` pattern
`[.!?]\s+` anchored at end-of-string demands trailing whitespace after
the punctuation, which stripped fragments never carry, so
`_is_complete_sentence` rejects `"Hello there friend."`. -/
theorem sentenceFinalizationNeverFires :
    (processTextResult (initEngineState (some "en")) ("Hello there")).2.finalText = "" ∧
    (processTextResult (initEngineState (some "en")) ("Hello there")).1 = c2Mid ∧
    (processTextResult c2Mid ("friend.")).2.finalText = "" ∧
    joinSpace ((processTextResult c2Mid ("friend.")).1.pendingFrags) = "Hello there friend." ∧
    isCompleteSentence (some "en") 3 ("Hello there friend.") = false := by
  refine ⟨?_, ?_, ?_, ?_, ?_⟩
  · rw [c2StepA]
  · rw [c2StepA]
  · rw [c2StepB]
  · rw [c2StepB]
    decide
  · decide
